import Mathlib

/-!
Shallow embedding of the papis schema-normalization engine
(`src/papis/crossref.py`) and the `explore` pipeline stages
(`src/papis/commands/explore.py`), with theorems checking the
natural-language specification against the code.
-/

/-- A Python-ish JSON-like value, as handled by the crossref code:
`None`, strings, integers, lists and (string-keyed) dicts. -/
inductive Value where
  | null : Value
  | str (s : String) : Value
  | int (n : Int) : Value
  | list (vs : List Value) : Value
  | dict (kvs : List (String × Value)) : Value

/-- Lookup in a string-keyed association list (Python `d[k]` / `k in d`
for a dict, first match wins; Python dicts have unique keys). -/
def vget {β : Type} : List (String × β) → String → Option β
  | [], _ => none
  | (k1, v) :: rest, k => if k1 = k then some v else vget rest k

/-- Python dict assignment `d[k] = v`: overwrite in place if the key is
present (keeping its position), otherwise append at the end. -/
def setKey {β : Type} : List (String × β) → String → β → List (String × β)
  | [], k, v => [(k, v)]
  | (k1, v1) :: rest, k, v =>
    if k1 = k then (k, v) :: rest else (k1, v1) :: setKey rest k v

/-- Python iteration `for x in v`: lists yield their elements, strings
yield their characters as one-character strings, dicts yield their keys;
`None` and integers are not iterable (a `TypeError`, modelled as `none`). -/
def pyIter : Value → Option (List Value)
  | .list vs => some vs
  | .str s => some (s.data.map (fun c => .str (String.mk [c])))
  | .dict kvs => some (kvs.map (fun kv => .str kv.1))
  | _ => none

/-- Python subscription `v[i]` for a non-negative literal index: lists and
strings index positionally; anything else (including a dict, whose keys are
strings here, so an integer subscript is a `KeyError`) raises, modelled as
`none`.  An out-of-range index (`IndexError`) is also `none`. -/
def pyIndex (v : Value) (i : Nat) : Option Value :=
  match v with
  | .list vs => vs.get? i
  | .str s => (s.data.get? i).map (fun c => .str (String.mk [c]))
  | _ => none

/-- `re.sub(r"(-[^-])", r"-\1", p)` on the character list of `p`: scanning
left to right, each non-overlapping occurrence of a dash followed by a
non-dash character is replaced by a dash followed by the matched text. -/
def dashSubAux : List Char → List Char
  | [] => []
  | [c] => [c]
  | c1 :: c2 :: rest =>
    if c1 = '-' ∧ c2 ≠ '-' then '-' :: '-' :: c2 :: dashSubAux rest
    else c1 :: dashSubAux (c2 :: rest)

def dashSub (s : String) : String := String.mk (dashSubAux s.data)

/-- The characters matched by Python's `re` pattern `\s` on `str` input
(ASCII whitespace plus the Unicode whitespace characters). -/
def pySpaceChars : List Char :=
  [' ', '\t', '\n', '\r', '\x0b', '\x0c',
   '\x1c', '\x1d', '\x1e', '\x1f', '\x85', '\xa0',
   '\u1680', '\u2000', '\u2001', '\u2002', '\u2003', '\u2004', '\u2005',
   '\u2006', '\u2007', '\u2008', '\u2009', '\u200a', '\u2028', '\u2029',
   '\u202f', '\u205f', '\u3000']

def isPySpace (c : Char) : Bool := pySpaceChars.contains c

/-- `re.sub(r'\s', '', s)`: remove every whitespace character. -/
def stripWS (s : String) : String :=
  String.mk (s.data.filter (fun c => !(isPySpace c)))

/-- A Python list comprehension `[f x for x in xs]` whose body may raise:
the first raise aborts the whole comprehension (modelled as `none`). -/
def mapOpt {α β : Type} (f : α → Option β) : List α → Option (List β)
  | [] => some []
  | x :: rest =>
    match f x with
    | none => none
    | some y => (mapOpt f rest).map (fun ys => y :: ys)

/-- The `type_converter` dict of `src/papis/crossref.py`. -/
def type_converter : List (String × String) :=
  [("book", "book"),
   ("book-chapter", "inbook"),
   ("book-part", "inbook"),
   ("book-section", "inbook"),
   ("book-series", "incollection"),
   ("book-set", "incollection"),
   ("book-track", "inbook"),
   ("dataset", "misc"),
   ("dissertation", "phdthesis"),
   ("edited-book", "book"),
   ("journal-article", "article"),
   ("journal-issue", "misc"),
   ("journal-volume", "article"),
   ("monograph", "monograph"),
   ("other", "misc"),
   ("peer-review", "article"),
   ("posted-content", "misc"),
   ("proceedings-article", "inproceedings"),
   ("proceedings", "inproceedings"),
   ("proceedings-series", "inproceedings"),
   ("reference-book", "book"),
   ("report", "report"),
   ("report-series", "inproceedings"),
   ("standard-series", "incollection"),
   ("standard", "techreport")]

/-- `a.get(k)` on an author entry: the value, or `None` when missing. -/
def authGet (kvs : List (String × Value)) (k : String) : Value :=
  (vget kvs k).getD .null

/-- Body of the `author` action's comprehension:
`{k: a.get(k) for k in ['given', 'family']}`; raises unless `a` is a dict. -/
def pickAuthor : Value → Option Value
  | .dict kvs =>
    some (.dict [("given", authGet kvs "given"), ("family", authGet kvs "family")])
  | _ => none

/-- The `author` action of `key_conversion`. -/
def actAuthor (v : Value) : Option Value :=
  match pyIter v with
  | none => none
  | some as => (mapOpt pickAuthor as).map .list

/-- The `container-title` action `lambda x: x[0]`. -/
def actContainer (v : Value) : Option Value := pyIndex v 0

/-- The `page` action `lambda p: re.sub(r"(-[^-])", r"-\1", p)`;
`re.sub` raises a `TypeError` unless `p` is a string. -/
def actPage : Value → Option Value
  | .str s => some (.str (dashSub s))
  | _ => none

/-- The first `published-print` action
`lambda x: x.get("date-parts")[0][0]`. -/
def actYear : Value → Option Value
  | .dict kvs =>
    match vget kvs "date-parts" with
    | some dp =>
      match pyIndex dp 0 with
      | some r => pyIndex r 0
      | none => none
    | none => none
  | _ => none

/-- The second `published-print` action
`lambda x: x.get("date-parts")[0][1]`. -/
def actMonth : Value → Option Value
  | .dict kvs =>
    match vget kvs "date-parts" with
    | some dp =>
      match pyIndex dp 0 with
      | some r => pyIndex r 1
      | none => none
    | none => none
  | _ => none

/-- Body of the `reference` action's comprehension: keep every key of `c`
except `"key"` and `"doi-asserted-by"`, lower-cased.  (CPython iterates the
key set in an unspecified order; the model keeps the source order, which no
claim depends on.)  Raises unless `c` is a dict. -/
def citItem : Value → Option Value
  | .dict kvs =>
    some (.dict (kvs.filterMap (fun kv =>
      if kv.1 = "key" ∨ kv.1 = "doi-asserted-by" then none
      else some (kv.1.toLower, kv.2))))
  | _ => none

/-- The `reference` action of `key_conversion`. -/
def actCitations (v : Value) : Option Value :=
  match pyIter v with
  | none => none
  | some cs => (mapOpt citItem cs).map .list

/-- `v` as a string, raising otherwise (for `" ".join(t)`). -/
def asStr : Value → Option String
  | .str s => some s
  | _ => none

/-- The `title` action `lambda t: " ".join(t)`. -/
def actTitle (v : Value) : Option Value :=
  match pyIter v with
  | none => none
  | some ts => (mapOpt asStr ts).map (fun ss => .str (String.intercalate " " ss))

/-- The `type` action `lambda t: type_converter[t]`; a missing key is a
`KeyError`, a non-string an unhashable/`KeyError` raise. -/
def actType : Value → Option Value
  | .str s => (vget type_converter s).map .str
  | _ => none

/-- One entry of the conversion table: an optional target `key` and an
optional `action` transform (the transform may raise, modelled as `none`). -/
structure Rule where
  key : Option String
  action : Option (Value → Option Value)

/-- A conversion-table value is either a single rule dict or a list of
rule dicts (the `isinstance(_conv_data_src, dict)` distinction). -/
inductive ConvEntry where
  | one (r : Rule)
  | many (rs : List Rule)

def ruleDOI : Rule := ⟨some "doi", none⟩

def ruleURL : Rule := ⟨some "url", none⟩

def ruleAuthor : Rule := ⟨some "author_list", some actAuthor⟩

def ruleJournal : Rule := ⟨some "journal", some actContainer⟩

def ruleIssue : Rule := ⟨none, none⟩

def ruleLanguage : Rule := ⟨none, none⟩

def rulePage : Rule := ⟨some "pages", some actPage⟩

def ruleYear : Rule := ⟨some "year", some actYear⟩

def ruleMonth : Rule := ⟨some "month", some actMonth⟩

def rulePublisher : Rule := ⟨none, none⟩

def ruleCitations : Rule := ⟨some "citations", some actCitations⟩

def ruleTitle : Rule := ⟨some "title", some actTitle⟩

def ruleType : Rule := ⟨some "type", some actType⟩

def ruleVolume : Rule := ⟨none, none⟩

/-- The `key_conversion` table of `src/papis/crossref.py`, in source
(insertion) order. -/
def key_conversion : List (String × ConvEntry) :=
  [("DOI", .one ruleDOI),
   ("URL", .one ruleURL),
   ("author", .one ruleAuthor),
   ("container-title", .one ruleJournal),
   ("issue", .one ruleIssue),
   ("language", .one ruleLanguage),
   ("page", .one rulePage),
   ("published-print", .many [ruleYear, ruleMonth]),
   ("publisher", .one rulePublisher),
   ("reference", .one ruleCitations),
   ("title", .one ruleTitle),
   ("type", .one ruleType),
   ("volume", .one ruleVolume)]

/-- Normalize a table entry to a list of rules (the
`if isinstance(_conv_data_src, dict): _conv_data_src = [_conv_data_src]`
step). -/
def entryRules : ConvEntry → List Rule
  | .one r => [r]
  | .many rs => rs

/-- The canonical (target) field names an entry writes:
`_conv_data['key']` when present, the source key otherwise. -/
def entryTargets (e : String × ConvEntry) : List String :=
  (entryRules e.2).map (fun r => r.key.getD e.1)

/-- `papis_val = action(data[xrefkey])` when an action is present, else the
raw value; `none` models the action raising. -/
def applyAction (rule : Rule) (v : Value) : Option Value :=
  match rule.action with
  | none => some v
  | some act => act v

/-- The inner `for _conv_data in _conv_data_src` loop of
`crossref_data_to_papis_data`: for each rule, compute the target key and
value and assign it; a raising action is caught by the `try`/`except`
and only skips that one assignment. -/
def applyRules (k : String) (v : Value) :
    List (String × Value) → List Rule → List (String × Value)
  | nd, [] => nd
  | nd, rule :: rest =>
    applyRules k v
      (match applyAction rule v with
       | some v1 => setKey nd (rule.key.getD k) v1
       | none => nd)
      rest

/-- One iteration of the outer `for xrefkey in key_conversion.keys()` loop:
skip the entry when the source key is absent from `data`. -/
def processEntry (data : List (String × Value)) (nd : List (String × Value))
    (ent : String × ConvEntry) : List (String × Value) :=
  match vget data ent.1 with
  | none => nd
  | some v => applyRules ent.1 v nd (entryRules ent.2)

/-- The whole mapping loop of `crossref_data_to_papis_data` (lines 83-102),
starting from `new_data = dict()`. -/
def mapStep (data : List (String × Value)) : List (String × Value) :=
  key_conversion.foldl (processEntry data) []

/-- The external collaborators `papis.config` and `papis.utils.format_doc`
(outside `src/`), as read-only configuration: the author separator and
per-author format, and the `ref-format` template with its formatter. -/
structure Config where
  sep : String
  authorFmt : Value → String
  refFormat : String
  formatDoc : String → List (String × Value) → String

/-- The `author_list` post-processing block (lines 104-111): when an
`author_list` field is present, derive the flattened `author` string by
joining the formatted entries; iterating a non-iterable `author_list`
would raise (`none`). -/
def addAuthor (cfg : Config) (nd : List (String × Value)) :
    Option (List (String × Value)) :=
  match vget nd "author_list" with
  | none => some nd
  | some al =>
    match pyIter al with
    | none => none
    | some authors =>
      some (setKey nd "author"
        (.str (String.intercalate cfg.sep (authors.map cfg.authorFmt))))

/-- The final `ref` derivation (lines 113-115): format the now-complete
record with the configured `ref-format` and strip all whitespace. -/
def addRef (cfg : Config) (nd : List (String × Value)) : List (String × Value) :=
  setKey nd "ref" (.str (stripWS (cfg.formatDoc cfg.refFormat nd)))

/-- The Python exceptions that the modelled code can raise.
`valueError` exists in the taxonomy (the dead `raise ValueError` in
`doi_to_data` and its handler in the `citations` stage) but is never
produced. -/
inductive PyErr where
  | invalidSourceRecord : PyErr
  | attributeError : PyErr
  | typeError : PyErr
  | valueError : PyErr
deriving DecidableEq

/-- `crossref_data_to_papis_data` (lines 80-117).  A non-mapping input
raises at `data.keys()` before any field is produced (the spec's
`InvalidSourceRecord`); per-field action failures are isolated inside
`mapStep`. -/
def crossref_data_to_papis_data (cfg : Config) (data : Value) :
    Except PyErr (List (String × Value)) :=
  match data with
  | .dict kvs =>
    match addAuthor cfg (mapStep kvs) with
    | some nd2 => .ok (addRef cfg nd2)
    | none => .error .typeError
  | .null => .error .invalidSourceRecord
  | .str _ => .error .invalidSourceRecord
  | .int _ => .error .invalidSourceRecord
  | .list _ => .error .invalidSourceRecord

/-- A Python list comprehension whose body returns `Except`: the first
raised exception propagates out of the whole comprehension. -/
def mapExc {α β : Type} (f : α → Except PyErr β) :
    List α → Except PyErr (List β)
  | [] => .ok []
  | a :: as =>
    match f a with
    | .error e => .error e
    | .ok b =>
      match mapExc f as with
      | .error e => .error e
      | .ok bs => .ok (b :: bs)

/-- The `message`-unpacking half of `get_data` (lines 145-154): `docs` is
`message['items']` when present, else `[message]`, and each raw doc goes
through `crossref_data_to_papis_data` (whose raise would propagate);
a non-dict `message` raises uncaught at `message.keys()`. -/
def handleMessage (cfg : Config) (message : Value) :
    Except PyErr (List (List (String × Value))) :=
  match message with
  | .dict mkvs =>
    match vget mkvs "items" with
    | some items =>
      match pyIter items with
      | none => .error .typeError
      | some docs => mapExc (crossref_data_to_papis_data cfg) docs
    | none => mapExc (crossref_data_to_papis_data cfg) [.dict mkvs]
  | _ => .error .attributeError

/-- `get_data` (lines 125-154), with the external `habanero` call
`_get_crossref_works(**kwargs)` abstracted by its outcome `resp`:
`none` models the call raising (caught and logged, `[]` returned),
`some results` its return value.  A results dict without a `'message'`
key also yields `[]`; a non-dict `results` raises uncaught at `.keys()`. -/
def get_data (cfg : Config) (resp : Option Value) :
    Except PyErr (List (List (String × Value))) :=
  match resp with
  | none => .ok []
  | some results =>
    match results with
    | .dict rkvs =>
      match vget rkvs "message" with
      | none => .ok []
      | some message => handleMessage cfg message
    | _ => .error .attributeError

/-- `doi_to_data` (lines 157-173), with the crossref response for
`get_data(dois=[doi])` abstracted as in `get_data`.  In the source the
`raise ValueError` sits after an unconditional `return results[0]` inside
the same `if results:` branch, so the function returns `results[0]` when
results exist and falls through to an implicit `return None` otherwise. -/
def doi_to_data (cfg : Config) (resp : Option Value) :
    Except PyErr (Option (List (String × Value))) :=
  match get_data cfg resp with
  | .error e => .error e
  | .ok results =>
    match results with
    | r :: _ => .ok (some r)
    | [] => .ok none

/-- The side effects a consumer stage performs (writing a file, printing,
spawning a subprocess); kept separate from the document accumulator. -/
inductive Effect where
  | fileAppend (path : String) (content : String) : Effect
  | stdout (content : String) : Effect
  | shellCall (cmd : String) : Effect

/-- The `explore` pipeline engine: `click`'s chained-group execution is
outside `src/`.  Modelled from the spec: stages execute strictly in
declaration order, each receiving the accumulator left by the previous
stage (`ctx.obj` threaded through the subcommands). -/
def runStages {α : Type} (stages : List (List α → List α)) (init : List α) :
    List α :=
  stages.foldl (fun acc s => s acc) init

/-- `cli` (lines 107-114): the run starts with `ctx.obj = {'documents': []}`. -/
def cliInit {α : Type} : List α := []

/-- A producer stage such as `crossref` (lines 205-231): the records
computed from the source response are appended to the accumulator,
`ctx.obj['documents'] += docs`. -/
def producerStage {α : Type} (newDocs : List α) (acc : List α) : List α :=
  acc ++ newDocs

/-- `list(filter(lambda x: x is not None, [...]))`. -/
def filtNone {α : Type} (xs : List (Option α)) : List α := xs.filterMap id

/-- Python `docs[i]` with an `int` index: negative indices count from the
end; out of range is an `IndexError`, modelled as `none`. -/
def pyGetIdx {α : Type} (xs : List α) (i : Int) : Option α :=
  if i < 0 then
    if 0 ≤ i + xs.length then xs.get? (i + xs.length).toNat else none
  else xs.get? i.toNat

/-- The `pick` stage (lines 365-390).  `papis.api.pick_doc` is outside
`src/` and is passed in as `picker`.  With `--number n` the stage first
reduces to `[docs[n - 1]]`, then filters the picker's result; `none`
models the `IndexError` a bad explicit index raises. -/
def pickStage {α : Type} (picker : List α → Option α) (number : Option Int)
    (docs : List α) : Option (List α) :=
  match number with
  | none => some (filtNone [picker docs])
  | some n =>
    match pyGetIdx docs (n - 1) with
    | none => none
    | some d => some (filtNone [picker [d]])

/-- The `export` stage (lines 591-632): serialize the accumulator with the
external `papis.commands.export.run` (passed in as `run`) and either
append to the `--out` file or print; the accumulator itself is only read. -/
def exportStage {α : Type} (run : List α → String) (out : Option String)
    (acc : List α) : List α × List Effect :=
  match out with
  | some path => (acc, [.fileAppend path (run acc)])
  | none => (acc, [.stdout (run acc)])

/-- The `cmd` stage (lines 635-659): for each document, format the shell
command with the external `papis.utils.format_doc` (passed in as `fmt`)
and call it; the accumulator itself is only read. -/
def cmdStage {α : Type} (fmt : String → α → String) (command : String)
    (acc : List α) : List α × List Effect :=
  (acc, acc.map (fun d => .shellCall (fmt command d)))

/-- Is the value a mapping (a Python dict)? -/
def isDict : Value → Bool
  | .dict _ => true
  | _ => false

/-- A concrete configuration used to evaluate witnesses. -/
def cfgW : Config :=
  ⟨", ", fun _ => "anon", "ref-template", fun _ _ => "a b"⟩

theorem vget_setKey_eq {β : Type} (nd : List (String × β)) (k : String) (v : β) :
    vget (setKey nd k v) k = some v := by
  induction nd with
  | nil => simp [setKey, vget]
  | cons hd tl ih =>
    obtain ⟨k1, v1⟩ := hd
    by_cases h : k1 = k <;> simp [setKey, vget, h, ih]

theorem vget_setKey_ne {β : Type} (nd : List (String × β)) (k : String) (v : β)
    (t : String) (h : t ≠ k) : vget (setKey nd k v) t = vget nd t := by
  have hkt : ¬(k = t) := fun hh => h hh.symm
  induction nd with
  | nil => simp [setKey, vget, hkt]
  | cons hd tl ih =>
    obtain ⟨k1, v1⟩ := hd
    by_cases h1 : k1 = k
    · subst h1
      simp [setKey, vget, hkt]
    · by_cases h2 : k1 = t
      · subst h2
        simp [setKey, vget, h1, h]
      · simp [setKey, vget, h1, h2, ih]


theorem processEntry_eval (data nd : List (String × Value)) (k0 : String)
    (e0 : ConvEntry) :
    processEntry data nd (k0, e0) =
      match vget data k0 with
      | none => nd
      | some v => applyRules k0 v nd (entryRules e0) := rfl

theorem processEntry_some (data nd : List (String × Value)) (k0 : String)
    (e0 : ConvEntry) (v : Value) (hv : vget data k0 = some v) :
    processEntry data nd (k0, e0) = applyRules k0 v nd (entryRules e0) := by
  rw [processEntry_eval, hv]

theorem target_not_mem (k0 : String) (e0 : ConvEntry) (t : String)
    (hnt : t ∉ entryTargets (k0, e0)) :
    ∀ r ∈ entryRules e0, r.key.getD k0 ≠ t :=
  fun r hr heq => hnt (List.mem_map.mpr ⟨r, hr, heq⟩)

theorem applyRules_skip (k : String) (v : Value) (t : String) :
    ∀ (rules : List Rule) (nd : List (String × Value)),
      (∀ r ∈ rules, r.key.getD k ≠ t) →
      vget (applyRules k v nd rules) t = vget nd t := by
  intro rules
  induction rules with
  | nil => intro nd _; rfl
  | cons rule rest ih =>
    intro nd h
    have h1 : rule.key.getD k ≠ t := h rule (List.mem_cons_self _ _)
    have h2 : ∀ r ∈ rest, r.key.getD k ≠ t :=
      fun r hr => h r (List.mem_cons_of_mem _ hr)
    simp only [applyRules]
    cases hact : applyAction rule v with
    | none => exact ih nd h2
    | some v1 =>
      rw [ih _ h2]
      exact vget_setKey_ne nd _ v1 t (Ne.symm h1)

theorem applyRules_append (k : String) (v : Value) :
    ∀ (l1 l2 : List Rule) (nd : List (String × Value)),
      applyRules k v nd (l1 ++ l2) = applyRules k v (applyRules k v nd l1) l2 := by
  intro l1
  induction l1 with
  | nil => intro l2 nd; rfl
  | cons rule rest ih =>
    intro l2 nd
    simp only [List.cons_append, applyRules]
    exact ih l2 _

theorem applyRules_hit (k : String) (v : Value) (rule : Rule) (rs2 : List Rule)
    (nd : List (String × Value))
    (h2 : ∀ r ∈ rs2, r.key.getD k ≠ rule.key.getD k) :
    vget (applyRules k v nd (rule :: rs2)) (rule.key.getD k) =
      match applyAction rule v with
      | some v1 => some v1
      | none => vget nd (rule.key.getD k) := by
  simp only [applyRules]
  cases hact : applyAction rule v with
  | none => exact applyRules_skip k v _ rs2 nd h2
  | some v1 => rw [applyRules_skip k v _ rs2 _ h2, vget_setKey_eq]

theorem foldl_skip (data : List (String × Value)) (t : String) :
    ∀ (entries : List (String × ConvEntry)) (nd : List (String × Value)),
      (∀ k0 e0, (k0, e0) ∈ entries → vget data k0 = none ∨ t ∉ entryTargets (k0, e0)) →
      vget (entries.foldl (processEntry data) nd) t = vget nd t := by
  intro entries
  induction entries with
  | nil => intro nd _; rfl
  | cons ent rest ih =>
    intro nd h
    obtain ⟨k0, e0⟩ := ent
    rw [List.foldl_cons,
        ih _ (fun k1 e1 he => h k1 e1 (List.mem_cons_of_mem _ he)),
        processEntry_eval]
    rcases h k0 e0 (List.mem_cons_self _ _) with hnone | hnt
    · rw [hnone]
    · cases hvk : vget data k0 with
      | none => rfl
      | some v0 =>
        exact applyRules_skip k0 v0 t (entryRules e0) nd (target_not_mem k0 e0 t hnt)

/-- The canonical target fields of the conversion table are pairwise
distinct: no two rules (whether of the same source key or of different
ones) write the same canonical field. -/
theorem targetsNodup : ((key_conversion.map entryTargets).flatten).Nodup := by
  decide

theorem target_mem_join (k : String) (e : ConvEntry) (rule : Rule)
    (hk : (k, e) ∈ key_conversion) (hr : rule ∈ entryRules e) :
    rule.key.getD k ∈ (key_conversion.map entryTargets).flatten :=
  List.mem_flatten.mpr
    ⟨entryTargets (k, e), List.mem_map_of_mem _ hk, List.mem_map.mpr ⟨rule, hr, rfl⟩⟩

/-- Characterization of the mapping loop: for a source key present in the
record, each of its rules leaves exactly its action's outcome (present on
success, absent on a raise) at its target field. -/
theorem vget_mapStep (data : List (String × Value)) (k : String) (e : ConvEntry)
    (rule : Rule) (v : Value)
    (hk : (k, e) ∈ key_conversion) (hr : rule ∈ entryRules e)
    (hv : vget data k = some v) :
    vget (mapStep data) (rule.key.getD k) = applyAction rule v := by
  obtain ⟨pre, post, hsplit⟩ := List.append_of_mem hk
  obtain ⟨rs1, rs2, hrsplit⟩ := List.append_of_mem hr
  have hnd2 : (((pre.map entryTargets).flatten) ++
      (entryTargets (k, e) ++ ((post.map entryTargets).flatten))).Nodup := by
    have h0 := targetsNodup
    rw [hsplit] at h0
    simpa [List.flatten_append] using h0
  rcases List.nodup_append.mp hnd2 with ⟨_, ndrest, disj1⟩
  rcases List.nodup_append.mp ndrest with ⟨ndent, _, disj2⟩
  have htmem : rule.key.getD k ∈ entryTargets (k, e) :=
    List.mem_map.mpr ⟨rule, hr, rfl⟩
  have hpre : ∀ k1 e1, (k1, e1) ∈ pre → rule.key.getD k ∉ entryTargets (k1, e1) := by
    intro k1 e1 he1 hmem
    exact disj1
      (List.mem_flatten.mpr ⟨entryTargets (k1, e1), List.mem_map_of_mem _ he1, hmem⟩)
      (List.mem_append_left _ htmem)
  have hpost : ∀ k1 e1, (k1, e1) ∈ post → rule.key.getD k ∉ entryTargets (k1, e1) := by
    intro k1 e1 he1 hmem
    exact disj2 htmem
      (List.mem_flatten.mpr ⟨entryTargets (k1, e1), List.mem_map_of_mem _ he1, hmem⟩)
  have ndent2 : ((rs1.map (fun r => r.key.getD k)) ++
      (rule.key.getD k) :: (rs2.map (fun r => r.key.getD k))).Nodup := by
    have h0 : entryTargets (k, e) = (entryRules e).map (fun r => r.key.getD k) := rfl
    rw [h0, hrsplit] at ndent
    simpa using ndent
  rcases List.nodup_append.mp ndent2 with ⟨_, ndcons, disj3⟩
  rcases List.nodup_cons.mp ndcons with ⟨hnotin2, _⟩
  have hrs2 : ∀ r ∈ rs2, r.key.getD k ≠ rule.key.getD k := by
    intro r hr2 heq
    exact hnotin2 (List.mem_map.mpr ⟨r, hr2, heq⟩)
  have hrs1 : ∀ r ∈ rs1, r.key.getD k ≠ rule.key.getD k := by
    intro r hr1 heq
    exact disj3 (List.mem_map.mpr ⟨r, hr1, heq⟩) (List.mem_cons_self _ _)
  unfold mapStep
  rw [hsplit, List.foldl_append, List.foldl_cons,
      foldl_skip data _ post _ (fun k1 e1 h1 => Or.inr (hpost k1 e1 h1)),
      processEntry_some data _ k e v hv]
  have hbase : vget (List.foldl (processEntry data) [] pre) (rule.key.getD k) = none := by
    rw [foldl_skip data _ pre _ (fun k1 e1 h1 => Or.inr (hpre k1 e1 h1))]
    rfl
  rw [hrsplit, applyRules_append, applyRules_hit k v rule rs2 _ hrs2]
  cases hact : applyAction rule v with
  | none =>
    rw [applyRules_skip k v _ rs1 _ hrs1]
    exact hbase
  | some v1 => rfl

/-- No rule of the conversion table targets the derived field `ref`. -/
theorem ref_not_target : "ref" ∉ (key_conversion.map entryTargets).flatten := by
  decide

/-- No rule of the conversion table targets the derived field `author`. -/
theorem author_not_target : "author" ∉ (key_conversion.map entryTargets).flatten := by
  decide

/-- A successful `author` action always returns a list. -/
theorem actAuthor_list (v w : Value) (h : actAuthor v = some w) :
    ∃ l, w = Value.list l := by
  unfold actAuthor at h
  cases hp : pyIter v with
  | none => rw [hp] at h; cases h
  | some as =>
    rw [hp] at h
    change Option.map Value.list (mapOpt pickAuthor as) = some w at h
    cases hm : mapOpt pickAuthor as with
    | none => rw [hm] at h; cases h
    | some l =>
      rw [hm] at h
      simp only [Option.map_some'] at h
      exact ⟨l, (Option.some.inj h).symm⟩

/-- Because all canonical targets are pairwise distinct, no entry other
than `(k, e)` writes any of `(k, e)`'s target fields. -/
theorem other_entries_miss (k : String) (e : ConvEntry) (t : String)
    (hk : (k, e) ∈ key_conversion) (ht : t ∈ entryTargets (k, e)) :
    ∀ k1 e1, (k1, e1) ∈ key_conversion → k1 ≠ k → t ∉ entryTargets (k1, e1) := by
  obtain ⟨pre, post, hsplit⟩ := List.append_of_mem hk
  have h0 := targetsNodup
  rw [hsplit] at h0
  have hnd2 : (((pre.map entryTargets).flatten) ++
      (entryTargets (k, e) ++ ((post.map entryTargets).flatten))).Nodup := by
    simpa [List.flatten_append] using h0
  rcases List.nodup_append.mp hnd2 with ⟨_, ndrest, disj1⟩
  rcases List.nodup_append.mp ndrest with ⟨_, _, disj2⟩
  intro k1 e1 hk1 hne hmem
  rw [hsplit] at hk1
  rcases List.mem_append.mp hk1 with hpre1 | hrest
  · exact disj1
      (List.mem_flatten.mpr ⟨entryTargets (k1, e1), List.mem_map_of_mem _ hpre1, hmem⟩)
      (List.mem_append_left _ ht)
  · rcases List.mem_cons.mp hrest with heq | hpost1
    · exact hne (congrArg Prod.fst heq)
    · exact disj2 ht
        (List.mem_flatten.mpr ⟨entryTargets (k1, e1), List.mem_map_of_mem _ hpost1, hmem⟩)

/-- The only writer of `author_list` is the `author` rule, whose action
returns a list when it succeeds; so in `new_data` the field is either
absent or a list. -/
theorem author_list_shape (data : List (String × Value)) :
    vget (mapStep data) "author_list" = none ∨
      ∃ l, vget (mapStep data) "author_list" = some (Value.list l) := by
  cases hva : vget data "author" with
  | none =>
    left
    have hkA : ("author", ConvEntry.one ruleAuthor) ∈ key_conversion := by
      unfold key_conversion
      exact List.mem_cons_of_mem _ (List.mem_cons_of_mem _ (List.mem_cons_self _ _))
    have htA : "author_list" ∈ entryTargets ("author", ConvEntry.one ruleAuthor) := by
      decide
    have h : ∀ k0 e0, (k0, e0) ∈ key_conversion →
        vget data k0 = none ∨ "author_list" ∉ entryTargets (k0, e0) := by
      intro k0 e0 he
      by_cases hko : k0 = "author"
      · subst hko
        exact Or.inl hva
      · exact Or.inr
          (other_entries_miss "author" (ConvEntry.one ruleAuthor) "author_list"
            hkA htA k0 e0 he hko)
    rw [show mapStep data = key_conversion.foldl (processEntry data) [] from rfl,
        foldl_skip data _ key_conversion [] h]
    rfl
  | some v =>
    have hk : ("author", ConvEntry.one ruleAuthor) ∈ key_conversion := by
      unfold key_conversion
      exact List.mem_cons_of_mem _ (List.mem_cons_of_mem _ (List.mem_cons_self _ _))
    have hr : ruleAuthor ∈ entryRules (ConvEntry.one ruleAuthor) :=
      List.mem_cons_self _ _
    have h : vget (mapStep data) "author_list" = actAuthor v :=
      vget_mapStep data "author" (ConvEntry.one ruleAuthor) ruleAuthor v hk hr hva
    cases ha : actAuthor v with
    | none => left; rw [h, ha]
    | some w =>
      right
      obtain ⟨l, rfl⟩ := actAuthor_list v w ha
      exact ⟨l, by rw [h, ha]⟩

/-- The `author_list` post-processing never raises on the mapping loop's
output, and touches only the `author` field. -/
theorem addAuthor_mapStep (cfg : Config) (data : List (String × Value)) :
    ∃ m, addAuthor cfg (mapStep data) = some m ∧
      ∀ t, t ≠ "author" → vget m t = vget (mapStep data) t := by
  rcases author_list_shape data with hnone | ⟨l, hsome⟩
  · refine ⟨mapStep data, ?_, fun t _ => rfl⟩
    unfold addAuthor
    rw [hnone]
  · refine ⟨setKey (mapStep data) "author"
      (.str (String.intercalate cfg.sep (l.map cfg.authorFmt))), ?_, ?_⟩
    · unfold addAuthor
      rw [hsome]
      rfl
    · intro t ht
      exact vget_setKey_ne _ _ _ _ ht

/-- `crossref_data_to_papis_data` never raises on a mapping: the mapping
loop is total, the author step succeeds, and the result is the record
after the `ref` derivation. -/
theorem crossref_ok (cfg : Config) (data : List (String × Value)) :
    ∃ m, addAuthor cfg (mapStep data) = some m ∧
      crossref_data_to_papis_data cfg (.dict data) = .ok (addRef cfg m) ∧
      ∀ t, t ≠ "author" → vget m t = vget (mapStep data) t := by
  obtain ⟨m, hm, hp⟩ := addAuthor_mapStep cfg data
  refine ⟨m, hm, ?_, hp⟩
  have hred : crossref_data_to_papis_data cfg (.dict data) =
      (match addAuthor cfg (mapStep data) with
       | some nd2 => .ok (addRef cfg nd2)
       | none => .error .typeError) := rfl
  rw [hred, hm]

/-- Full-function field characterization: for any source key present in
the input and any of its rules, the final output of
`crossref_data_to_papis_data` holds exactly the action's outcome at that
rule's target field. -/
theorem crossref_field (cfg : Config) (data : List (String × Value)) (k : String)
    (e : ConvEntry) (rule : Rule) (v : Value)
    (hk : (k, e) ∈ key_conversion) (hr : rule ∈ entryRules e)
    (hv : vget data k = some v) :
    ∃ r, crossref_data_to_papis_data cfg (.dict data) = .ok r ∧
      vget r (rule.key.getD k) = applyAction rule v := by
  obtain ⟨m, _, hok, hp⟩ := crossref_ok cfg data
  have hmem := target_mem_join k e rule hk hr
  have hne_ref : rule.key.getD k ≠ "ref" := fun h => ref_not_target (h ▸ hmem)
  have hne_auth : rule.key.getD k ≠ "author" := fun h => author_not_target (h ▸ hmem)
  refine ⟨addRef cfg m, hok, ?_⟩
  unfold addRef
  rw [vget_setKey_ne _ _ _ _ hne_ref, hp _ hne_auth,
      vget_mapStep data k e rule v hk hr hv]

/-- Stripping whitespace leaves no whitespace character in the result. -/
theorem stripWS_no_space (s : String) :
    ∀ c ∈ (stripWS s).data, isPySpace c = false := by
  intro c hc
  have hc2 : c ∈ s.data.filter (fun c => !(isPySpace c)) := hc
  have h := List.mem_filter.mp hc2
  simpa using h.2

/-- Each conversion-table entry's own target list is duplicate-free. -/
theorem entry_targets_nodup (k : String) (e : ConvEntry)
    (hk : (k, e) ∈ key_conversion) : (entryTargets (k, e)).Nodup := by
  obtain ⟨pre, post, hsplit⟩ := List.append_of_mem hk
  have h0 := targetsNodup
  rw [hsplit] at h0
  have h1 : (((pre.map entryTargets).flatten) ++
      (entryTargets (k, e) ++ ((post.map entryTargets).flatten))).Nodup := by
    simpa [List.flatten_append] using h0
  exact (List.nodup_append.mp ((List.nodup_append.mp h1).2.1)).1

/-- The only error the normalizer itself produces is the non-mapping one. -/
theorem crossref_err_classify (cfg : Config) (v : Value) (e : PyErr)
    (h : crossref_data_to_papis_data cfg v = .error e) :
    e = PyErr.invalidSourceRecord := by
  cases v with
  | dict kvs =>
    obtain ⟨m, _, hok, _⟩ := crossref_ok cfg kvs
    rw [hok] at h
    cases h
  | null => exact (Except.error.inj h).symm
  | str s => exact (Except.error.inj h).symm
  | int n => exact (Except.error.inj h).symm
  | list vs => exact (Except.error.inj h).symm

/-- Mapping the normalizer over raw docs can only raise the normalizer's
own errors, never a `ValueError`. -/
theorem mapExc_no_ve (cfg : Config) (docs : List Value) :
    mapExc (crossref_data_to_papis_data cfg) docs ≠ .error .valueError := by
  induction docs with
  | nil => intro h; exact Except.noConfusion h
  | cons d rest ih =>
    intro h
    simp only [mapExc] at h
    split at h
    · rename_i e hd
      have he := crossref_err_classify cfg d e hd
      rw [Except.error.inj h] at he
      exact PyErr.noConfusion he
    · rename_i b hd
      split at h
      · rename_i e hrest
        rw [Except.error.inj h] at hrest
        exact ih hrest
      · rename_i bs hrest
        exact Except.noConfusion h

/-- `handleMessage` never raises a `ValueError`. -/
theorem handleMessage_no_ve (cfg : Config) (message : Value)
    (h : handleMessage cfg message = .error .valueError) : False := by
  cases message with
  | dict mkvs =>
    have h2 : (match vget mkvs "items" with
        | some items =>
          match pyIter items with
          | none => (.error .typeError :
              Except PyErr (List (List (String × Value))))
          | some docs => mapExc (crossref_data_to_papis_data cfg) docs
        | none =>
          mapExc (crossref_data_to_papis_data cfg) [.dict mkvs]) =
        .error .valueError := h
    cases hit : vget mkvs "items" with
    | none =>
      rw [hit] at h2
      exact mapExc_no_ve cfg _ h2
    | some items =>
      rw [hit] at h2
      have h3 : (match pyIter items with
          | none => (.error .typeError :
              Except PyErr (List (List (String × Value))))
          | some docs => mapExc (crossref_data_to_papis_data cfg) docs) =
          .error .valueError := h2
      cases hi : pyIter items with
      | none =>
        rw [hi] at h3
        have h4 : (Except.error PyErr.typeError :
            Except PyErr (List (List (String × Value)))) = .error .valueError := h3
        exact PyErr.noConfusion (Except.error.inj h4)
      | some docs =>
        rw [hi] at h3
        exact mapExc_no_ve cfg _ h3
  | null => exact PyErr.noConfusion (Except.error.inj h)
  | str s => exact PyErr.noConfusion (Except.error.inj h)
  | int n => exact PyErr.noConfusion (Except.error.inj h)
  | list vs => exact PyErr.noConfusion (Except.error.inj h)

/-- `get_data` never raises a `ValueError`. -/
theorem get_data_no_ve (cfg : Config) (resp : Option Value) :
    get_data cfg resp ≠ .error .valueError := by
  cases resp with
  | none => intro h; exact Except.noConfusion h
  | some results =>
    cases results with
    | dict rkvs =>
      intro h
      have h2 : (match vget rkvs "message" with
          | none => (.ok [] : Except PyErr (List (List (String × Value))))
          | some message => handleMessage cfg message) = .error .valueError := h
      cases hmsg : vget rkvs "message" with
      | none =>
        rw [hmsg] at h2
        exact Except.noConfusion h2
      | some message =>
        rw [hmsg] at h2
        exact handleMessage_no_ve cfg message h2
    | null => intro h; exact PyErr.noConfusion (Except.error.inj h)
    | str s => intro h; exact PyErr.noConfusion (Except.error.inj h)
    | int n => intro h; exact PyErr.noConfusion (Except.error.inj h)
    | list vs => intro h; exact PyErr.noConfusion (Except.error.inj h)

/-- C1: for every source record and every source key present in both the
record and the conversion table, a raising transform leads only to that
rule's canonical field being omitted, every other rule of every present
source key is still applied (the output holds exactly the action's outcome
at each rule's target), and no exception reaches the caller (the result is
always `.ok`). -/
theorem crossref_isolates_transform_failures (cfg : Config)
    (data : List (String × Value)) (k : String) (e : ConvEntry) (rule : Rule)
    (v : Value) (hk : (k, e) ∈ key_conversion) (hr : rule ∈ entryRules e)
    (hv : vget data k = some v) :
    ∃ r, crossref_data_to_papis_data cfg (.dict data) = .ok r ∧
      (applyAction rule v = none → vget r (rule.key.getD k) = none) ∧
      (∀ v1, applyAction rule v = some v1 → vget r (rule.key.getD k) = some v1) := by
  obtain ⟨r, hok, hfield⟩ := crossref_field cfg data k e rule v hk hr hv
  exact ⟨r, hok, fun hn => by rw [hfield, hn],
    fun v1 hs => by rw [hfield, hs]⟩

theorem crossref_isolates_transform_failures_check :
    ∃ r, crossref_data_to_papis_data cfgW
        (.dict [("DOI", .str "10.1/x"), ("type", .str "bogus")]) = .ok r ∧
      (applyAction ruleType (.str "bogus") = none →
        vget r (ruleType.key.getD "type") = none) ∧
      (∀ v1, applyAction ruleType (.str "bogus") = some v1 →
        vget r (ruleType.key.getD "type") = some v1) :=
  crossref_isolates_transform_failures cfgW
    [("DOI", .str "10.1/x"), ("type", .str "bogus")] "type"
    (ConvEntry.one ruleType) ruleType (.str "bogus")
    (by simp [key_conversion]) (List.mem_cons_self _ _) rfl

/-- C2: for producers P1 then P2 followed by a transformer T1 and a consumer
C1, starting from the empty accumulator of `cli`, the accumulator observed
by T1 is exactly P1's output followed by P2's output in declaration order. -/
theorem pipeline_accumulator_ordering {α : Type} (o1 o2 : List α)
    (t1 c1 : List α → List α) :
    runStages [producerStage o1, producerStage o2] cliInit = o1 ++ o2 ∧
    runStages [producerStage o1, producerStage o2, t1, c1] cliInit =
      c1 (t1 (o1 ++ o2)) := by
  constructor <;> simp [runStages, producerStage, cliInit]

/-- C3: a source key mapped to a list of n rules, on a record containing
that key with all transforms succeeding, yields exactly n (pairwise
distinct, all present) canonical fields from that source key. -/
theorem conversion_fanout (cfg : Config) (data : List (String × Value))
    (k : String) (rs : List Rule) (v : Value)
    (hk : (k, ConvEntry.many rs) ∈ key_conversion)
    (hv : vget data k = some v)
    (hs : ∀ rule ∈ rs, (applyAction rule v).isSome = true) :
    ∃ r, crossref_data_to_papis_data cfg (.dict data) = .ok r ∧
      (entryTargets (k, ConvEntry.many rs)).length = rs.length ∧
      (entryTargets (k, ConvEntry.many rs)).Nodup ∧
      ∀ t ∈ entryTargets (k, ConvEntry.many rs), (vget r t).isSome = true := by
  obtain ⟨m, hm, hok, hp⟩ := crossref_ok cfg data
  refine ⟨addRef cfg m, hok, ?_, entry_targets_nodup k _ hk, ?_⟩
  · simp [entryTargets, entryRules]
  · intro t ht
    have ht2 : t ∈ rs.map (fun r => r.key.getD k) := ht
    obtain ⟨rule, hrule, rfl⟩ := List.mem_map.mp ht2
    obtain ⟨r2, hok2, hval⟩ :=
      crossref_field cfg data k (ConvEntry.many rs) rule v hk hrule hv
    rw [hok] at hok2
    rw [Except.ok.inj hok2, hval]
    exact hs rule hrule

theorem conversion_fanout_check :
    ∃ r, crossref_data_to_papis_data cfgW
        (.dict [("published-print",
          .dict [("date-parts", .list [.list [.int 2019, .int 3]])])]) = .ok r ∧
      (entryTargets ("published-print",
        ConvEntry.many [ruleYear, ruleMonth])).length =
        [ruleYear, ruleMonth].length ∧
      (entryTargets ("published-print", ConvEntry.many [ruleYear, ruleMonth])).Nodup ∧
      ∀ t ∈ entryTargets ("published-print", ConvEntry.many [ruleYear, ruleMonth]),
        (vget r t).isSome = true :=
  conversion_fanout cfgW
    [("published-print", .dict [("date-parts", .list [.list [.int 2019, .int 3]])])]
    "published-print" [ruleYear, ruleMonth]
    (.dict [("date-parts", .list [.list [.int 2019, .int 3]])])
    (by simp [key_conversion]) rfl
    (by
      intro rule hrule
      simp only [List.mem_cons, List.not_mem_nil, or_false] at hrule
      rcases hrule with rfl | rfl <;> rfl)

/-- C4: for every input record, the derived `ref` field is computed last,
from the record `m` as it stands after all mapped fields and the derived
`author` field are set, and the resulting `ref` value contains no
whitespace characters. -/
theorem ref_derived_last_whitespace_free (cfg : Config)
    (kvs : List (String × Value)) :
    ∃ m s, addAuthor cfg (mapStep kvs) = some m ∧
      s = stripWS (cfg.formatDoc cfg.refFormat m) ∧
      crossref_data_to_papis_data cfg (.dict kvs) = .ok (setKey m "ref" (.str s)) ∧
      vget (setKey m "ref" (.str s)) "ref" = some (.str s) ∧
      ∀ c ∈ s.data, isPySpace c = false := by
  obtain ⟨m, hm, hok, _⟩ := crossref_ok cfg kvs
  exact ⟨m, stripWS (cfg.formatDoc cfg.refFormat m), hm, rfl, hok,
    vget_setKey_eq _ _ _, stripWS_no_space _⟩

/-- C5: the record `{"page": "12-3"}` normalizes with a canonical `pages`
field of value `"12--3"`; in general the `page` rule renames `page` to
`pages` and applies the dash-doubling substitution to the value. -/
theorem page_rule_dash_doubling (cfg : Config) :
    (∃ r, crossref_data_to_papis_data cfg (.dict [("page", .str "12-3")]) = .ok r ∧
        vget r "pages" = some (.str "12--3")) ∧
    rulePage.key = some "pages" ∧
    ∀ s, applyAction rulePage (.str s) = some (.str (dashSub s)) := by
  refine ⟨?_, rfl, fun s => rfl⟩
  obtain ⟨m, hm, hok, hp⟩ := crossref_ok cfg [("page", Value.str "12-3")]
  refine ⟨addRef cfg m, hok, ?_⟩
  have h1 : ("pages" : String) ≠ "ref" := by decide
  have h2 : ("pages" : String) ≠ "author" := by decide
  unfold addRef
  rw [vget_setKey_ne _ _ _ _ h1, hp _ h2]
  rfl

/-- C6: with an explicit 1-based index n within the accumulator's length,
the `pick` stage reduces the accumulator to exactly the n-th record (the
external picker returning the sole element of a singleton list); and when
the picker chooses nothing, the resulting accumulator is empty. -/
theorem pick_stage_selects_nth {α : Type} (picker : List α → Option α)
    (docs : List α) (n : Nat) (h1 : 1 ≤ n) (h2 : n ≤ docs.length)
    (hp : ∀ x, picker [x] = some x) :
    (∃ d, docs.get? (n - 1) = some d ∧
       pickStage picker (some (n : Int)) docs = some [d]) ∧
    (picker docs = none → pickStage picker none docs = some []) := by
  constructor
  · have hlt : n - 1 < docs.length := by omega
    refine ⟨docs.get ⟨n - 1, hlt⟩, List.get?_eq_get hlt, ?_⟩
    have hidx : pyGetIdx docs ((n : Int) - 1) = some (docs.get ⟨n - 1, hlt⟩) := by
      unfold pyGetIdx
      have h0 : ¬((n : Int) - 1 < 0) := by omega
      rw [if_neg h0]
      have h3 : ((n : Int) - 1).toNat = n - 1 := by omega
      rw [h3]
      exact List.get?_eq_get hlt
    show (match pyGetIdx docs ((n : Int) - 1) with
          | none => none
          | some d => some (filtNone [picker [d]])) =
        some [docs.get ⟨n - 1, hlt⟩]
    rw [hidx]
    show some (filtNone [picker [docs.get ⟨n - 1, hlt⟩]]) =
      some [docs.get ⟨n - 1, hlt⟩]
    rw [hp]
    rfl
  · intro hc
    show some (filtNone [picker docs]) = some []
    rw [hc]
    rfl

theorem pick_stage_selects_nth_check :
    (∃ d, ([10, 20, 30] : List Nat).get? (2 - 1) = some d ∧
       pickStage (fun l => l.head?) (some ((2 : Nat) : Int)) [10, 20, 30] =
         some [d]) ∧
    ((fun l : List Nat => l.head?) [10, 20, 30] = none →
       pickStage (fun l => l.head?) none [10, 20, 30] = some []) :=
  pick_stage_selects_nth (fun l => l.head?) [10, 20, 30] 2
    (by decide) (by decide) (fun x => rfl)

/-- C7: when the external crossref collaborator raises, or returns a
response dict without a `message` key, `get_data` returns the empty record
list instead of propagating an error. -/
theorem get_data_failure_yields_empty (cfg : Config)
    (rkvs : List (String × Value)) (hmsg : vget rkvs "message" = none) :
    get_data cfg none = .ok [] ∧ get_data cfg (some (.dict rkvs)) = .ok [] := by
  refine ⟨rfl, ?_⟩
  show (match vget rkvs "message" with
        | none => (.ok [] : Except PyErr (List (List (String × Value))))
        | some message => handleMessage cfg message) = .ok []
  rw [hmsg]

theorem get_data_failure_yields_empty_check :
    get_data cfgW none = .ok [] ∧
    get_data cfgW (some (.dict [("status", .str "failed")])) = .ok [] :=
  get_data_failure_yields_empty cfgW [("status", .str "failed")] rfl

/-- C8: the consumer stages `export` and `cmd` leave the document
accumulator unchanged: the documents after the stage equal the documents
before, whatever the options. -/
theorem consumer_stages_pass_through {α : Type} (run : List α → String)
    (out : Option String) (fmt : String → α → String) (command : String)
    (acc : List α) :
    (exportStage run out acc).1 = acc ∧ (cmdStage fmt command acc).1 = acc := by
  refine ⟨?_, rfl⟩
  cases out <;> rfl

/-- C9: on any input that is not a mapping the normalizer fails with the
invalid-source-record error and returns no (hence no partial) record. -/
theorem normalizer_rejects_non_mapping (cfg : Config) (v : Value)
    (h : isDict v = false) :
    crossref_data_to_papis_data cfg v = .error .invalidSourceRecord := by
  cases v with
  | dict kvs => simp [isDict] at h
  | null => rfl
  | str s => rfl
  | int n => rfl
  | list vs => rfl

theorem normalizer_rejects_non_mapping_check :
    crossref_data_to_papis_data cfgW (.str "not-a-record") =
      .error .invalidSourceRecord :=
  normalizer_rejects_non_mapping cfgW (.str "not-a-record") rfl

/-- C10: whenever `get_data` yields the empty result list, `doi_to_data`
returns `None` rather than raising `ValueError` (the `raise` after the
unconditional `return` is unreachable), and `doi_to_data` never raises
`ValueError` at all, so the downstream handler never fires. -/
theorem doi_to_data_empty_returns_none (cfg : Config) (resp : Option Value) :
    (get_data cfg resp = .ok [] → doi_to_data cfg resp = .ok none) ∧
    doi_to_data cfg resp ≠ .error .valueError := by
  constructor
  · intro h
    show (match get_data cfg resp with
          | .error e => (.error e : Except PyErr (Option (List (String × Value))))
          | .ok results =>
            match results with
            | r :: _ => .ok (some r)
            | [] => .ok none) = .ok none
    rw [h]
  · intro h
    have h2 : (match get_data cfg resp with
          | .error e => (.error e : Except PyErr (Option (List (String × Value))))
          | .ok results =>
            match results with
            | r :: _ => .ok (some r)
            | [] => .ok none) = .error .valueError := h
    cases hg : get_data cfg resp with
    | error e =>
      rw [hg] at h2
      have h3 : (Except.error e :
          Except PyErr (Option (List (String × Value)))) = .error .valueError := h2
      rw [Except.error.inj h3] at hg
      exact get_data_no_ve cfg resp hg
    | ok results =>
      rw [hg] at h2
      cases results with
      | nil =>
        have h3 : (Except.ok none :
            Except PyErr (Option (List (String × Value)))) = .error .valueError := h2
        exact Except.noConfusion h3
      | cons r rest =>
        have h3 : (Except.ok (some r) :
            Except PyErr (Option (List (String × Value)))) = .error .valueError := h2
        exact Except.noConfusion h3

theorem doi_to_data_empty_returns_none_check :
    doi_to_data cfgW none = .ok none ∧
    doi_to_data cfgW none ≠ .error .valueError :=
  ⟨(doi_to_data_empty_returns_none cfgW none).1 rfl,
   (doi_to_data_empty_returns_none cfgW none).2⟩
